import Mathlib

/-!
Verification development for the rateyourbike server (src/index.js,
local-disk variant; src/unnamed/part_000 is the cloud variant with the
same validation pipeline).  The HTTP handlers are embedded shallowly:
request bodies become structures of `Option` fields (`none` models a
missing multipart field, i.e. JS `undefined`), the multer middleware
becomes an explicit fold over the incoming file list, and the MongoDB
calls become list operations over an in-memory database.
-/

/-- JS truthiness of an optional string form field: `undefined` and the
empty string are falsy, every other string is truthy. -/
def strTruthy : Option String → Bool
  | none => false
  | some s => !(s = "")

/-- Characters matched by the JS regular-expression class used in
`bikeName.replace(/\s+/g, '')`: space, tab, newline, carriage return,
vertical tab, form feed. -/
def jsWS (c : Char) : Bool :=
  c = ' ' || c = '\t' || c = '\n' || c = '\r' || c = '\x0b' || c = '\x0c'

/-- Removal of all whitespace from a string, the effect of
`s.replace(/\s+/g, '')` in the source (replacing every maximal
whitespace run by the empty string deletes exactly the whitespace
characters). -/
def stripWS (s : String) : String :=
  ⟨s.data.filter (fun c => !jsWS c)⟩

/-- Embedding of Node's `path.extname`: the suffix of the name starting
at the last dot, empty when there is no dot or the only dot is the
leading character. -/
def extname (s : String) : String :=
  match s.data.reverse.findIdx? (fun c => c = '.') with
  | none => ""
  | some i =>
    if i + 1 = s.data.length then ""
    else ⟨s.data.drop (s.data.length - 1 - i)⟩

/-- The mime types accepted by the multer `fileFilter` in the source. -/
def allowedTypes : List String := ["image/jpeg", "image/png", "image/gif"]

/-- The multer `limits.fileSize` value: 5 * 1024 * 1024 bytes. -/
def maxFileSize : Nat := 5 * 1024 * 1024

/-- One incoming multipart file part.  `suffix` models the unique name
`Date.now() + '-' + Math.round(Math.random() * 1E9)` generated in the
multer `filename` callback; it is nondeterministic at run time, so the
embedding takes it as part of the request. -/
structure IncomingFile where
  originalname : String
  mimetype : String
  size : Nat
  suffix : String
deriving DecidableEq

/-- The on-disk file name chosen by the multer `filename` callback:
`uniqueSuffix + ext`. -/
def multerFilename (f : IncomingFile) : String :=
  f.suffix ++ extname f.originalname

/-- The errors the multer stage can produce.  None of them carries an
HTTP status: the application installs no error-handling middleware, so
each one reaches the framework default handler and surfaces as 500. -/
inductive MulterErr where
  | limitUnexpectedFile
  | invalidFileType
  | missingNameField
  | limitFileSize
deriving DecidableEq

/-- Embedding of the `upload.array('bikeImages', 5)` middleware with the
configured `diskStorage`.  Files are processed in order; for each file
multer first enforces the max count of 5, then runs the `fileFilter`
mime-type check, then the `diskStorage.destination` callback (which
errors when `bikeName` or `modelName` is falsy), then the streaming
`fileSize` limit.  On success it yields the generated file names in
input order. -/
def procFiles (bikeName modelName : Option String) :
    Nat → List IncomingFile → Except MulterErr (List String)
  | _, [] => .ok []
  | n, f :: fs =>
    if 5 ≤ n then .error .limitUnexpectedFile
    else if !(allowedTypes.contains f.mimetype) then .error .invalidFileType
    else if !(strTruthy bikeName && strTruthy modelName) then .error .missingNameField
    else if maxFileSize < f.size then .error .limitFileSize
    else
      match procFiles bikeName modelName (n + 1) fs with
      | .ok rest => .ok (multerFilename f :: rest)
      | .error e => .error e

/-- The multipart body of a POST /api/bikes/add request.  Numeric fields
are carried as `Option Int`: `none` models an absent field, for which
`Number(undefined)` evaluates to NaN in the handler's coercion. -/
structure SubmitBody where
  riderName : Option String
  bikeName : Option String
  modelName : Option String
  purchaseYear : Option Int
  totalKM : Option Int
  bikeCost : Option Int
  costPerService : Option Int
  review : Option String
  rating : Option Int
  worthTheCost : Option String
deriving DecidableEq

/-- The handler's rating test `!rating || rating < 1 || rating > 5`
restricted to integer-valued ratings (an absent field is falsy). -/
def ratingBad : Option Int → Bool
  | none => true
  | some r => r < 1 || r > 5

/-- The guard on line 172 of src/index.js:
`!riderName || !bikeName || !modelName || !review || !rating || rating < 1 || rating > 5`. -/
def requiredCheckFails (b : SubmitBody) : Bool :=
  !strTruthy b.riderName || !strTruthy b.bikeName || !strTruthy b.modelName ||
  !strTruthy b.review || ratingBad b.rating

/-- The storage grouping key
`bikeName.replace(/\s+/g,'') + '-' + modelName.replace(/\s+/g,'')`,
computed on the success path where both names are present. -/
def folderNameOf (b : SubmitBody) : String :=
  stripWS (b.bikeName.getD "") ++ "-" ++ stripWS (b.modelName.getD "")

/-- The values accepted by the `worthTheCost` enum in the schema. -/
def worthEnum : List String := ["Yes", "Definitely Yes", "No"]

/-- One persisted review record (the mongoose `Bike` document after a
successful save, when every numeric field cast to an actual number). -/
structure Review where
  id : Nat
  riderName : String
  bikeName : String
  modelName : String
  purchaseYear : Int
  totalKM : Int
  bikeCost : Int
  costPerService : Int
  review : String
  rating : Int
  worthTheCost : String
  images : List String
  createdAt : Nat
deriving DecidableEq

/-- Embedding of `new Bike({...})` followed by `newBike.save()`.  The
handler coerces every numeric field with `Number(...)`; `Number` of an
absent field is NaN, which the mongoose number cast rejects, so the
save succeeds only when every numeric field was supplied.  The schema
validators re-check the rating bounds and the `worthTheCost` enum; an
omitted `worthTheCost` takes the schema default `'Yes'`.  `none` models
a rejected save (the handler's catch block answers 500). -/
def trySave (b : SubmitBody) (images : List String) (id clock : Nat) :
    Option Review :=
  match b.purchaseYear, b.totalKM, b.bikeCost, b.costPerService, b.rating with
  | some py, some km, some bc, some cps, some rt =>
    if (1 ≤ rt && rt ≤ 5)
        && (match b.worthTheCost with
            | none => true
            | some w => worthEnum.contains w) then
      some ⟨id, b.riderName.getD "", b.bikeName.getD "", b.modelName.getD "",
            py, km, bc, cps, b.review.getD "", rt,
            b.worthTheCost.getD "Yes", images, clock⟩
    else none
  | _, _, _, _, _ => none

/-- Observable side effects of a submission: the database insert and the
`io.emit('newReview', newBike)` broadcast, in the order the handler
performs them. -/
inductive Effect where
  | saved : Review → Effect
  | emitted : Review → Effect
deriving DecidableEq

/-- Outcome of a POST /api/bikes/add request: HTTP status, the created
record if any, the resulting database contents, and the effect trace. -/
structure SubmitResult where
  status : Nat
  record : Option Review
  db : List Review
  trace : List Effect
deriving DecidableEq

/-- A full submission request: body fields plus the multipart files. -/
structure SubmitRequest where
  body : SubmitBody
  files : List IncomingFile
deriving DecidableEq

/-- Embedding of the POST /api/bikes/add pipeline, lines 157-223 of
src/index.js.  The multer stage runs first; any error it produces
reaches the framework default error handler, which answers 500 because
neither the plain `Error`s nor the `MulterError`s carry a status.  The
handler then runs the required-field guard (400), the minimum image
count guard (400), builds the compressed image paths
`/uploads/<folder>/compressed-<filename>` in input order, and saves.
`nextId` models the repository-assigned identifier and `clock` the
`createdAt` server timestamp. -/
def postBikesAdd (db : List Review) (nextId clock : Nat)
    (req : SubmitRequest) : SubmitResult :=
  match procFiles req.body.bikeName req.body.modelName 0 req.files with
  | .error _ => ⟨500, none, db, []⟩
  | .ok stored =>
    if requiredCheckFails req.body then ⟨400, none, db, []⟩
    else if stored.length < 3 then ⟨400, none, db, []⟩
    else
      let folder := folderNameOf req.body
      let images := stored.map
        (fun fn => "/uploads/" ++ folder ++ "/compressed-" ++ fn)
      match trySave req.body images nextId clock with
      | none => ⟨500, none, db, []⟩
      | some rec => ⟨201, some rec, db ++ [rec], [.saved rec, .emitted rec]⟩

/-- A file that passes both per-file filters: allowed mime type and size
within the 5 MiB limit. -/
def validFile (f : IncomingFile) : Bool :=
  allowedTypes.contains f.mimetype && f.size ≤ maxFileSize

/-- A body every check of the pipeline accepts: the four required
strings truthy, an integer rating within 1..5, every numeric field
present, and `worthTheCost` absent or in the enum. -/
def wellFormedBody (b : SubmitBody) : Bool :=
  strTruthy b.riderName && strTruthy b.bikeName && strTruthy b.modelName &&
  strTruthy b.review &&
  (match b.rating with | none => false | some r => 1 ≤ r && r ≤ 5) &&
  b.purchaseYear.isSome && b.totalKM.isSome && b.bikeCost.isSome &&
  b.costPerService.isSome &&
  (match b.worthTheCost with | none => true | some w => worthEnum.contains w)

/-- Ordering used by `.sort(\x7b createdAt: -1 \x7d)`: newest first. -/
def newestFirst (a b : Review) : Prop := b.createdAt ≤ a.createdAt

instance : DecidableRel newestFirst := fun a b => Nat.decLe b.createdAt a.createdAt

instance : IsTotal Review newestFirst :=
  ⟨fun a b => Nat.le_total b.createdAt a.createdAt⟩

instance : IsTrans Review newestFirst :=
  ⟨fun _ _ _ hab hbc => Nat.le_trans hbc hab⟩

/-- PCRE metacharacters other than the dot.  The regex embedding below
covers only the fragment the repository's tests of the search route
exercise: literal characters plus the `.` wildcard.  A pattern using any
of these characters is outside the fragment and is modelled as failing
to compile; this is exact for the genuinely invalid patterns considered
in this development (a lone unmatched parenthesis), and such patterns
make the MongoDB find reject, landing in the handler's catch block. -/
def regexMeta (c : Char) : Bool :=
  c = '\\' || c = '|' || c = '(' || c = ')' || c = '[' || c = ']' ||
  c = '\x7b' || c = '\x7d' || c = '*' || c = '+' || c = '?' ||
  c = '^' || c = '$'

/-- One compiled regex token of the modelled fragment. -/
inductive RTok where
  | any : RTok
  | lit : Char → RTok
deriving DecidableEq

/-- Compilation of one pattern character. -/
def compileChar (c : Char) : Option RTok :=
  if c = '.' then some RTok.any
  else if regexMeta c then none
  else some (RTok.lit c)

/-- Compilation of a pattern character list. -/
def compileAux : List Char → Option (List RTok)
  | [] => some []
  | c :: cs =>
    match compileChar c, compileAux cs with
    | some t, some ts => some (t :: ts)
    | _, _ => none

/-- Compilation of the `$regex` pattern string. -/
def regexCompile (q : String) : Option (List RTok) := compileAux q.data

/-- Case-insensitive single-character match (`$options: 'i'`). -/
def tokMatch : RTok → Char → Bool
  | RTok.any, _ => true
  | RTok.lit p, c => p.toLower = c.toLower

/-- Match of a compiled pattern against the front of a string. -/
def matchFront : List RTok → List Char → Bool
  | [], _ => true
  | _ :: _, [] => false
  | t :: ts, c :: cs => tokMatch t c && matchFront ts cs

/-- Unanchored regex search: the pattern matches at some position. -/
def reSearch (pat : List RTok) : List Char → Bool
  | [] => matchFront pat []
  | c :: cs => matchFront pat (c :: cs) || reSearch pat cs

/-- Whether a field value matches the compiled `$regex` pattern. -/
def reTest (pat : List RTok) (s : String) : Bool := reSearch pat s.data

/-- The `$or` filter of the search route: `bikeName` or `modelName`
matches the case-insensitive regex. -/
def bikeMatches (pat : List RTok) (r : Review) : Bool :=
  reTest pat r.bikeName || reTest pat r.modelName

/-- Result of a GET route returning a list of records. -/
structure SearchResult where
  status : Nat
  results : List Review
deriving DecidableEq

/-- Embedding of GET /api/bikes/search, lines 122-142 of src/index.js.
A missing or empty `query` is falsy and answers 400; otherwise the
query string is handed to MongoDB as a case-insensitive `$regex` over
`bikeName` or `modelName`, sorted newest first and limited to 10.  A
pattern the engine rejects makes `find` throw, and the catch block
answers 500. -/
def searchBikes (db : List Review) (query : Option String) : SearchResult :=
  match query with
  | none => ⟨400, []⟩
  | some q =>
    if q = "" then ⟨400, []⟩
    else
      match regexCompile q with
      | none => ⟨500, []⟩
      | some pat =>
        ⟨200, ((db.filter (bikeMatches pat)).insertionSort newestFirst).take 10⟩

/-- Literal match of a needle against the front of a haystack. -/
def litFront : List Char → List Char → Bool
  | [], _ => true
  | _ :: _, [] => false
  | q :: qs, c :: cs => (q = c) && litFront qs cs

/-- Literal containment of a needle at some position of a haystack. -/
def litSub (q : List Char) : List Char → Bool
  | [] => litFront q []
  | c :: cs => litFront q (c :: cs) || litSub q cs

/-- Case-insensitive literal substring containment, the spec's reading
of the search operation ("case-insensitive substring match"). -/
def ciSubstring (needle hay : String) : Bool :=
  litSub (needle.data.map Char.toLower) (hay.data.map Char.toLower)

/-- Reference definition following the spec's words for search: records
whose `bikeName` or `modelName` contains the query as a case-insensitive
substring, ordered by creation time descending, capped at 10. -/
def searchBikesSpec (db : List Review) (q : String) : List Review :=
  ((db.filter
      (fun r => ciSubstring q r.bikeName || ciSubstring q r.modelName)).insertionSort
    newestFirst).take 10

/-- A query character that is a plain literal: not the wildcard dot and
not a metacharacter. -/
def plainChar (c : Char) : Bool := !(c = '.') && !(regexMeta c)

/-- A query made only of plain literal characters. -/
def plainQuery (q : String) : Bool := q.data.all plainChar

/-- Result of GET /api/bikes/:id. -/
structure GetResult where
  status : Nat
  record : Option Review
deriving DecidableEq

/-- Embedding of GET /api/bikes/:id, lines 144-155 of src/index.js:
`findById` over the repository-assigned identifier space; a missing
record answers 404. -/
def getBikeById (db : List Review) (id : Nat) : GetResult :=
  match db.find? (fun r => r.id == id) with
  | none => ⟨404, none⟩
  | some b => ⟨200, some b⟩

/-- The record a successful save produces.  It is meaningful only on the
path where `trySave` returned it, i.e. when every numeric field of the
body was supplied; the `getD` defaults are never reached there. -/
def madeReview (b : SubmitBody) (images : List String) (id clock : Nat) : Review :=
  ⟨id, b.riderName.getD "", b.bikeName.getD "", b.modelName.getD "",
   b.purchaseYear.getD 0, b.totalKM.getD 0, b.bikeCost.getD 0,
   b.costPerService.getD 0, b.review.getD "", b.rating.getD 0,
   b.worthTheCost.getD "Yes", images, clock⟩

/-- The image reference list the handler stores for a request, one path
per input file, in input order. -/
def imagePathsOf (req : SubmitRequest) : List String :=
  req.files.map (fun f =>
    "/uploads/" ++ folderNameOf req.body ++ "/compressed-" ++ multerFilename f)

/-- A well-formed JPEG upload used as concrete test data. -/
def fileA : IncomingFile := ⟨"a.jpg", "image/jpeg", 1000, "111-222"⟩

/-- A file rejected by the mime-type filter. -/
def fileBadType : IncomingFile := ⟨"a.pdf", "application/pdf", 1000, "333-444"⟩

/-- A file one byte over the 5 MiB limit. -/
def fileBig : IncomingFile := ⟨"b.png", "image/png", 5242881, "555-666"⟩

/-- A fully valid submission body (the spec's worked example). -/
def body0 : SubmitBody :=
  ⟨some "Asha", some "Royal Enfield", some "Himalayan", some 2020,
   some 15000, some 250000, some 3000, some "Reliable tourer", some 5,
   some "Definitely Yes"⟩

/-- body0 with `totalKM` omitted. -/
def bodyNoKM : SubmitBody :=
  ⟨some "Asha", some "Royal Enfield", some "Himalayan", some 2020,
   none, some 250000, some 3000, some "Reliable tourer", some 5,
   some "Definitely Yes"⟩

/-- body0 with `costPerService` omitted. -/
def bodyNoCPS : SubmitBody :=
  ⟨some "Asha", some "Royal Enfield", some "Himalayan", some 2020,
   some 15000, some 250000, none, some "Reliable tourer", some 5,
   some "Definitely Yes"⟩

/-- body0 with an out-of-range rating of 7. -/
def bodyR7 : SubmitBody :=
  ⟨some "Asha", some "Royal Enfield", some "Himalayan", some 2020,
   some 15000, some 250000, some 3000, some "Reliable tourer", some 7,
   some "Definitely Yes"⟩

/-- A valid submission with n copies of the valid file. -/
def reqN (n : Nat) : SubmitRequest := ⟨body0, List.replicate n fileA⟩

/-- A submission whose second file has a disallowed mime type. -/
def reqBadType : SubmitRequest := ⟨body0, [fileA, fileBadType, fileA]⟩

/-- A submission whose third file exceeds the size limit. -/
def reqBigFile : SubmitRequest := ⟨body0, [fileA, fileA, fileBig]⟩

/-- A submission with an out-of-range rating and valid files. -/
def reqR7 : SubmitRequest := ⟨bodyR7, List.replicate 3 fileA⟩

/-- The image path the pipeline produces for fileA under body0. -/
def imgPathA : String := "/uploads/RoyalEnfield-Himalayan/compressed-111-222.jpg"

/-- The record created by a successful submission of reqN 3, for the
given identifier and timestamp. -/
def recAt (id clk : Nat) : Review :=
  ⟨id, "Asha", "Royal Enfield", "Himalayan", 2020, 15000, 250000, 3000,
   "Reliable tourer", 5, "Definitely Yes", [imgPathA, imgPathA, imgPathA], clk⟩

/-- A record matching no "royal" search. -/
def recHonda : Review :=
  ⟨9, "B", "Honda", "CB350", 2021, 1, 1, 1, "ok", 4, "Yes", [], 20⟩

/-- A record whose bikeName contains "abc", matched by the pattern
"a.c" though it does not contain "a.c" literally. -/
def recAbc : Review :=
  ⟨21, "R", "abc", "x", 2020, 0, 1, 0, "rev", 5, "Yes", [], 10⟩

/-- A record whose bikeName literally contains an open parenthesis. -/
def recParen : Review :=
  ⟨22, "R", "KTM (390)", "Duke", 2021, 0, 1, 0, "rev", 4, "Yes", [], 11⟩

theorem procFiles_all_ok (bn mn : Option String) (hb : strTruthy bn = true)
    (hm : strTruthy mn = true) :
    ∀ (fs : List IncomingFile) (n : Nat), n + fs.length ≤ 5 →
      (∀ f ∈ fs, validFile f = true) →
      procFiles bn mn n fs = Except.ok (fs.map multerFilename) := by
  intro fs
  induction fs with
  | nil => intro n _ _; rfl
  | cons f fs ih =>
    intro n hlen hall
    have hf : validFile f = true := hall f (List.mem_cons_self f fs)
    rw [validFile, Bool.and_eq_true] at hf
    have hsz : f.size ≤ maxFileSize := of_decide_eq_true hf.2
    have h5 : ¬ (5 ≤ n) := by
      simp only [List.length_cons] at hlen; omega
    have h4 : ¬ (maxFileSize < f.size) := by omega
    have hrec := ih (n + 1)
      (by simp only [List.length_cons] at hlen; omega)
      (fun g hg => hall g (List.mem_cons_of_mem f hg))
    simp only [procFiles]
    rw [if_neg h5, hf.1, hb, hm]
    simp only [Bool.not_true, Bool.and_true, Bool.false_eq_true, if_false]
    rw [if_neg h4, hrec]
    rfl

theorem procFiles_err_of_bad (bn mn : Option String) :
    ∀ (n : Nat) (fs : List IncomingFile),
      (∃ f ∈ fs, validFile f = false) →
      ∃ e, procFiles bn mn n fs = Except.error e := by
  intro n fs
  induction fs generalizing n with
  | nil =>
    rintro ⟨f, hf, _⟩
    exact absurd hf (List.not_mem_nil f)
  | cons f fs ih =>
    rintro ⟨g, hg, hbad⟩
    by_cases h5 : 5 ≤ n
    · exact ⟨.limitUnexpectedFile, by simp only [procFiles]; rw [if_pos h5]⟩
    cases ht : allowedTypes.contains f.mimetype with
    | false =>
      refine ⟨.invalidFileType, ?_⟩
      simp only [procFiles]
      rw [if_neg h5, ht]
      rfl
    | true =>
      cases hbn : strTruthy bn with
      | false =>
        refine ⟨.missingNameField, ?_⟩
        simp only [procFiles]
        rw [if_neg h5, ht, hbn]
        rfl
      | true =>
        cases hmn : strTruthy mn with
        | false =>
          refine ⟨.missingNameField, ?_⟩
          simp only [procFiles]
          rw [if_neg h5, ht, hbn, hmn]
          rfl
        | true =>
          by_cases hs : maxFileSize < f.size
          · refine ⟨.limitFileSize, ?_⟩
            simp only [procFiles]
            rw [if_neg h5, ht, hbn, hmn]
            simp only [Bool.not_true, Bool.and_true, Bool.false_eq_true, if_false]
            rw [if_pos hs]
          · have hg' : g ∈ fs := by
              rcases List.mem_cons.mp hg with he | hm2
              · subst he
                rw [validFile, ht] at hbad
                simp only [Bool.true_and] at hbad
                have : ¬ (g.size ≤ maxFileSize) := by
                  intro hc
                  rw [decide_eq_true hc] at hbad
                  cases hbad
                omega
              · exact hm2
            obtain ⟨e, he⟩ := ih (n + 1) ⟨g, hg', hbad⟩
            refine ⟨e, ?_⟩
            simp only [procFiles]
            rw [if_neg h5, ht, hbn, hmn]
            simp only [Bool.not_true, Bool.and_true, Bool.false_eq_true, if_false]
            rw [if_neg hs, he]

theorem procFiles_err_of_many (bn mn : Option String) :
    ∀ (fs : List IncomingFile) (n : Nat), n ≤ 5 → 5 < n + fs.length →
      ∃ e, procFiles bn mn n fs = Except.error e := by
  intro fs
  induction fs with
  | nil => intro n h1 h2; simp only [List.length_nil] at h2; omega
  | cons f fs ih =>
    intro n h1 h2
    by_cases h5 : 5 ≤ n
    · exact ⟨.limitUnexpectedFile, by simp only [procFiles]; rw [if_pos h5]⟩
    cases ht : allowedTypes.contains f.mimetype with
    | false =>
      refine ⟨.invalidFileType, ?_⟩
      simp only [procFiles]
      rw [if_neg h5, ht]
      rfl
    | true =>
      cases hbn : strTruthy bn with
      | false =>
        refine ⟨.missingNameField, ?_⟩
        simp only [procFiles]
        rw [if_neg h5, ht, hbn]
        rfl
      | true =>
        cases hmn : strTruthy mn with
        | false =>
          refine ⟨.missingNameField, ?_⟩
          simp only [procFiles]
          rw [if_neg h5, ht, hbn, hmn]
          rfl
        | true =>
          by_cases hs : maxFileSize < f.size
          · refine ⟨.limitFileSize, ?_⟩
            simp only [procFiles]
            rw [if_neg h5, ht, hbn, hmn]
            simp only [Bool.not_true, Bool.and_true, Bool.false_eq_true, if_false]
            rw [if_pos hs]
          · obtain ⟨e, he⟩ := ih (n + 1) (by omega)
              (by simp only [List.length_cons] at h2; omega)
            refine ⟨e, ?_⟩
            simp only [procFiles]
            rw [if_neg h5, ht, hbn, hmn]
            simp only [Bool.not_true, Bool.and_true, Bool.false_eq_true, if_false]
            rw [if_neg hs, he]

theorem wellFormed_parts (b : SubmitBody) (h : wellFormedBody b = true) :
    strTruthy b.riderName = true ∧ strTruthy b.bikeName = true ∧
    strTruthy b.modelName = true ∧ strTruthy b.review = true ∧
    (match b.rating with
     | none => false
     | some r => decide (1 ≤ r) && decide (r ≤ 5)) = true ∧
    b.purchaseYear.isSome = true ∧ b.totalKM.isSome = true ∧
    b.bikeCost.isSome = true ∧ b.costPerService.isSome = true ∧
    (match b.worthTheCost with
     | none => true
     | some w => worthEnum.contains w) = true := by
  rw [wellFormedBody] at h
  simp only [Bool.and_eq_true] at h
  obtain ⟨⟨⟨⟨⟨⟨⟨⟨⟨h1, h2⟩, h3⟩, h4⟩, h5⟩, h6⟩, h7⟩, h8⟩, h9⟩, h10⟩ := h
  exact ⟨h1, h2, h3, h4, h5, h6, h7, h8, h9, h10⟩

theorem wellFormed_required (b : SubmitBody) (h : wellFormedBody b = true) :
    requiredCheckFails b = false := by
  obtain ⟨h1, h2, h3, h4, h5, -⟩ := wellFormed_parts b h
  cases hr : b.rating with
  | none => rw [hr] at h5; cases h5
  | some r =>
    rw [hr] at h5
    rw [Bool.and_eq_true] at h5
    have ha : (1 : Int) ≤ r := of_decide_eq_true h5.1
    have hb2 : r ≤ 5 := of_decide_eq_true h5.2
    rw [requiredCheckFails, h1, h2, h3, h4, hr, ratingBad]
    simp only [Bool.not_true, Bool.false_or, Bool.or_eq_false_iff,
      decide_eq_false_iff_not]
    omega

theorem trySave_wf (b : SubmitBody) (h : wellFormedBody b = true)
    (images : List String) (id clock : Nat) :
    trySave b images id clock = some (madeReview b images id clock) := by
  obtain ⟨-, -, -, -, hrt, hpy, hkm, hbc, hcps, hw⟩ := wellFormed_parts b h
  obtain ⟨py, hpy⟩ := Option.isSome_iff_exists.mp hpy
  obtain ⟨km, hkm⟩ := Option.isSome_iff_exists.mp hkm
  obtain ⟨bc, hbc⟩ := Option.isSome_iff_exists.mp hbc
  obtain ⟨cps, hcps⟩ := Option.isSome_iff_exists.mp hcps
  cases hr : b.rating with
  | none => rw [hr] at hrt; cases hrt
  | some r =>
    rw [hr] at hrt
    have hrt2 : (decide (1 ≤ r) && decide (r ≤ 5)) = true := hrt
    simp [trySave, madeReview, hpy, hkm, hbc, hcps, hr, hrt2, hw]
    cases hwc : b.worthTheCost with
    | none => rfl
    | some w => rw [hwc] at hw; simpa using hw

theorem trySave_id (b : SubmitBody) (images : List String) (id clock : Nat)
    (rec : Review) (h : trySave b images id clock = some rec) :
    rec.id = id ∧ rec.createdAt = clock := by
  rw [trySave] at h
  split at h
  · split at h
    · cases h
      exact ⟨rfl, rfl⟩
    · cases h
  · cases h

theorem postBikesAdd_success (db : List Review) (nid clk : Nat)
    (req : SubmitRequest) (hbody : wellFormedBody req.body = true)
    (hfiles : ∀ f ∈ req.files, validFile f = true)
    (h3 : 3 ≤ req.files.length) (h5 : req.files.length ≤ 5) :
    postBikesAdd db nid clk req =
      ⟨201, some (madeReview req.body (imagePathsOf req) nid clk),
       db ++ [madeReview req.body (imagePathsOf req) nid clk],
       [Effect.saved (madeReview req.body (imagePathsOf req) nid clk),
        Effect.emitted (madeReview req.body (imagePathsOf req) nid clk)]⟩ := by
  obtain ⟨-, hb, hm, -, -⟩ := wellFormed_parts req.body hbody
  have hok := procFiles_all_ok req.body.bikeName req.body.modelName hb hm
    req.files 0 (by omega) hfiles
  have hreq := wellFormed_required req.body hbody
  have hlen : ¬ ((req.files.map multerFilename).length < 3) := by
    rw [List.length_map]; omega
  rw [postBikesAdd, hok]
  simp only [hreq, Bool.false_eq_true, if_false]
  rw [if_neg hlen]
  have himg : (req.files.map multerFilename).map
      (fun fn => "/uploads/" ++ folderNameOf req.body ++ "/compressed-" ++ fn) =
      imagePathsOf req := by
    rw [List.map_map, imagePathsOf]
    rfl
  rw [himg, trySave_wf req.body hbody (imagePathsOf req) nid clk]

theorem postBikesAdd_shape (db : List Review) (nid clk : Nat)
    (req : SubmitRequest) :
    (∃ s, s ≠ 201 ∧ postBikesAdd db nid clk req = ⟨s, none, db, []⟩) ∨
    (∃ rec, rec.id = nid ∧ rec.createdAt = clk ∧
      postBikesAdd db nid clk req =
        ⟨201, some rec, db ++ [rec], [Effect.saved rec, Effect.emitted rec]⟩) := by
  cases hpf : procFiles req.body.bikeName req.body.modelName 0 req.files with
  | error e =>
    exact Or.inl ⟨500, by omega, by rw [postBikesAdd, hpf]⟩
  | ok stored =>
    cases hrc : requiredCheckFails req.body with
    | true =>
      exact Or.inl ⟨400, by omega, by rw [postBikesAdd, hpf]; simp [hrc]⟩
    | false =>
      by_cases hl : stored.length < 3
      · exact Or.inl ⟨400, by omega, by
          rw [postBikesAdd, hpf]; simp [hrc, hl]⟩
      · cases hts : trySave req.body
            (stored.map (fun fn =>
              "/uploads/" ++ folderNameOf req.body ++ "/compressed-" ++ fn))
            nid clk with
        | none =>
          exact Or.inl ⟨500, by omega, by
            rw [postBikesAdd, hpf]; simp [hrc, hl, hts]⟩
        | some rec =>
          obtain ⟨hid, hclk⟩ := trySave_id _ _ _ _ _ hts
          exact Or.inr ⟨rec, hid, hclk, by
            rw [postBikesAdd, hpf]; simp [hrc, hl, hts]⟩

theorem find?_id_unique :
    ∀ (db : List Review), (db.map Review.id).Nodup →
      ∀ r ∈ db, db.find? (fun s => s.id == r.id) = some r := by
  intro db
  induction db with
  | nil => intro _ r hr; exact absurd hr (List.not_mem_nil r)
  | cons d ds ih =>
    intro hnd r hr
    rw [List.map_cons, List.nodup_cons] at hnd
    rcases List.mem_cons.mp hr with he | hm
    · subst he
      simp [List.find?]
    · have hne : (d.id == r.id) = false := by
        rw [beq_eq_false_iff_ne]
        intro he2
        exact hnd.1 (he2 ▸ List.mem_map_of_mem Review.id hm)
      simp only [List.find?, hne]
      exact ih hnd.2 r hm

theorem find?_fresh (db : List Review) (rec : Review)
    (h : ∀ r ∈ db, r.id < rec.id) :
    (db ++ [rec]).find? (fun s => s.id == rec.id) = some rec := by
  induction db with
  | nil => simp [List.find?]
  | cons d ds ih =>
    have hd : d.id < rec.id := h d (List.mem_cons_self d ds)
    have hne : (d.id == rec.id) = false := by
      rw [beq_eq_false_iff_ne]; omega
    simp only [List.cons_append, List.find?, hne]
    exact ih (fun r hr => h r (List.mem_cons_of_mem d hr))

theorem compileAux_plain :
    ∀ (l : List Char), (∀ c ∈ l, plainChar c = true) →
      compileAux l = some (l.map RTok.lit) := by
  intro l
  induction l with
  | nil => intro _; rfl
  | cons c cs ih =>
    intro hall
    have hc : plainChar c = true := hall c (List.mem_cons_self c cs)
    rw [plainChar, Bool.and_eq_true] at hc
    have hdot : ¬ (c = '.') := by
      intro he
      rw [he] at hc
      simp at hc
    have hmeta : ¬ (regexMeta c = true) := by
      have h2 := hc.2
      cases hm : regexMeta c
      · simp
      · rw [hm] at h2; simp at h2
    simp only [compileAux, compileChar]
    rw [if_neg hdot, if_neg hmeta,
      ih (fun d hd => hall d (List.mem_cons_of_mem c hd))]
    rfl

theorem matchFront_lit :
    ∀ (l s : List Char),
      matchFront (l.map RTok.lit) s =
        litFront (l.map Char.toLower) (s.map Char.toLower) := by
  intro l
  induction l with
  | nil => intro s; rfl
  | cons c cs ih =>
    intro s
    cases s with
    | nil => rfl
    | cons d ds =>
      simp only [List.map_cons, matchFront, litFront, tokMatch]
      rw [ih ds]

theorem reSearch_lit :
    ∀ (s l : List Char),
      reSearch (l.map RTok.lit) s =
        litSub (l.map Char.toLower) (s.map Char.toLower) := by
  intro s
  induction s with
  | nil =>
    intro l
    simp only [List.map_nil, reSearch, litSub]
    exact matchFront_lit l []
  | cons c cs ih =>
    intro l
    simp only [List.map_cons, reSearch, litSub]
    rw [matchFront_lit l (c :: cs), ih l]
    simp only [List.map_cons]

theorem searchBikes_plain (db : List Review) (q : String) (hq : ¬ (q = ""))
    (hplain : plainQuery q = true) :
    searchBikes db (some q) = ⟨200, searchBikesSpec db q⟩ := by
  have hcomp : regexCompile q = some (q.data.map RTok.lit) := by
    rw [regexCompile]
    exact compileAux_plain q.data (by
      rw [plainQuery, List.all_eq_true] at hplain
      exact hplain)
  have hfil : db.filter (bikeMatches (q.data.map RTok.lit)) =
      db.filter (fun r => ciSubstring q r.bikeName || ciSubstring q r.modelName) := by
    apply List.filter_congr
    intro r _
    rw [bikeMatches, reTest, reTest, reSearch_lit, reSearch_lit,
      ciSubstring, ciSubstring]
  simp only [searchBikes]
  rw [if_neg hq, hcomp]
  simp only [searchBikesSpec]
  rw [hfil]

/-- C1 (amended): for a well-formed body and per-file-valid images, a
submission with 3 to 5 images succeeds with 201 and stores one image
reference per input file; with 2 or fewer images it fails with 400; with
6 or more images it fails with 500, because multer's file-count error
reaches the framework default error handler instead of being mapped to a
validation response. -/
theorem C1_image_count_status (db : List Review) (nid clk : Nat)
    (req : SubmitRequest) (hbody : wellFormedBody req.body = true)
    (hfiles : ∀ f ∈ req.files, validFile f = true) :
    (3 ≤ req.files.length → req.files.length ≤ 5 →
      (postBikesAdd db nid clk req).status = 201 ∧
      (postBikesAdd db nid clk req).record.map (fun r => r.images.length) =
        some req.files.length) ∧
    (req.files.length < 3 → (postBikesAdd db nid clk req).status = 400) ∧
    (5 < req.files.length → (postBikesAdd db nid clk req).status = 500) := by
  refine ⟨fun h3 h5 => ?_, fun hlt => ?_, fun hgt => ?_⟩
  · rw [postBikesAdd_success db nid clk req hbody hfiles h3 h5]
    refine ⟨rfl, ?_⟩
    show some (imagePathsOf req).length = some req.files.length
    rw [imagePathsOf, List.length_map]
  · obtain ⟨-, hb, hm, -, -⟩ := wellFormed_parts req.body hbody
    have hok := procFiles_all_ok req.body.bikeName req.body.modelName hb hm
      req.files 0 (by omega) hfiles
    have hreq := wellFormed_required req.body hbody
    rw [postBikesAdd, hok]
    simp only [hreq, Bool.false_eq_true, if_false]
    rw [if_pos (by rw [List.length_map]; omega)]
  · obtain ⟨e, he⟩ := procFiles_err_of_many req.body.bikeName
      req.body.modelName req.files 0 (by omega) (by omega)
    rw [postBikesAdd, he]

/-- Witness for C1 at concrete submissions with 4, 2 and 6 valid
images. -/
theorem C1_image_count_status_witness :
    (postBikesAdd [] 0 0 (reqN 4)).status = 201 ∧
    (postBikesAdd [] 0 0 (reqN 4)).record.map (fun r => r.images.length) =
      some 4 ∧
    (postBikesAdd [] 0 0 (reqN 2)).status = 400 ∧
    (postBikesAdd [] 0 0 (reqN 6)).status = 500 := by
  have h4 := C1_image_count_status [] 0 0 (reqN 4) (by decide) (by decide)
  have h2 := C1_image_count_status [] 0 0 (reqN 2) (by decide) (by decide)
  have h6 := C1_image_count_status [] 0 0 (reqN 6) (by decide) (by decide)
  exact ⟨(h4.1 (by decide) (by decide)).1, (h4.1 (by decide) (by decide)).2,
    h2.2.1 (by decide), h6.2.2 (by decide)⟩

/-- Counterexample to C1 as stated: a valid submission with 6 valid
images is answered 500, not 400. -/
theorem C1_counterexample :
    (postBikesAdd [] 0 0 (reqN 6)).status = 500 ∧
    ¬ ((postBikesAdd [] 0 0 (reqN 6)).status = 400) := by decide

/-- C3 (confirmed): every successful submission stores image references
of the form /uploads/(grouping key)/compressed-(unique name), where the
grouping key concatenates the whitespace-stripped bikeName, a hyphen,
and the whitespace-stripped modelName, in input order. -/
theorem C3_grouping_key (db : List Review) (nid clk : Nat)
    (req : SubmitRequest) (bn mn : String)
    (hbody : wellFormedBody req.body = true)
    (hbn : req.body.bikeName = some bn) (hmn : req.body.modelName = some mn)
    (hfiles : ∀ f ∈ req.files, validFile f = true)
    (h3 : 3 ≤ req.files.length) (h5 : req.files.length ≤ 5) :
    (postBikesAdd db nid clk req).status = 201 ∧
    (postBikesAdd db nid clk req).record.map Review.images =
      some (req.files.map (fun f =>
        "/uploads/" ++ (stripWS bn ++ "-" ++ stripWS mn) ++ "/compressed-" ++
          multerFilename f)) := by
  rw [postBikesAdd_success db nid clk req hbody hfiles h3 h5]
  refine ⟨rfl, ?_⟩
  show some (imagePathsOf req) = _
  rw [imagePathsOf, folderNameOf, hbn, hmn]
  rfl

/-- Witness for C3: the spec's worked example, bikeName "Royal Enfield"
and modelName "Himalayan", groups under "RoyalEnfield-Himalayan". -/
theorem C3_grouping_key_witness :
    (postBikesAdd [] 7 99 (reqN 3)).status = 201 ∧
    (postBikesAdd [] 7 99 (reqN 3)).record.map Review.images =
      some ["/uploads/RoyalEnfield-Himalayan/compressed-111-222.jpg",
            "/uploads/RoyalEnfield-Himalayan/compressed-111-222.jpg",
            "/uploads/RoyalEnfield-Himalayan/compressed-111-222.jpg"] := by
  have h := C3_grouping_key [] 7 99 (reqN 3) "Royal Enfield" "Himalayan"
    (by decide) rfl rfl (by decide) (by decide) (by decide)
  exact ⟨h.1, by rw [h.2]; rfl⟩

/-- C4 (confirmed): with valid files and the other required fields
present, an integer rating outside 1..5 makes the submission fail with
400, and an integer rating inside 1..5 passes the required-field
guard. -/
theorem C4_rating_validation (db : List Review) (nid clk : Nat)
    (req : SubmitRequest) (r : Int)
    (hfiles : ∀ f ∈ req.files, validFile f = true)
    (hlen : req.files.length ≤ 5)
    (hrider : strTruthy req.body.riderName = true)
    (hbike : strTruthy req.body.bikeName = true)
    (hmodel : strTruthy req.body.modelName = true)
    (hreview : strTruthy req.body.review = true)
    (hr : req.body.rating = some r) :
    ((r < 1 ∨ 5 < r) → (postBikesAdd db nid clk req).status = 400) ∧
    (1 ≤ r → r ≤ 5 → requiredCheckFails req.body = false) := by
  constructor
  · intro hout
    have hok := procFiles_all_ok req.body.bikeName req.body.modelName
      hbike hmodel req.files 0 (by omega) hfiles
    have hbad : requiredCheckFails req.body = true := by
      rw [requiredCheckFails, hr, ratingBad]
      rcases hout with h | h
      · rw [decide_eq_true h]
        simp
      · have hgt : r > 5 := h
        rw [decide_eq_true hgt]
        simp
    rw [postBikesAdd, hok]
    simp [hbad]
  · intro h1 h5b
    rw [requiredCheckFails, hrider, hbike, hmodel, hreview, hr, ratingBad]
    simp only [Bool.not_true, Bool.false_or, Bool.or_eq_false_iff,
      decide_eq_false_iff_not]
    omega

/-- Witness for C4: a rating of 7 is rejected with 400; a rating of 5
passes the required-field guard. -/
theorem C4_rating_validation_witness :
    (postBikesAdd [] 0 0 reqR7).status = 400 ∧
    requiredCheckFails body0 = false := by
  have h7 := C4_rating_validation [] 0 0 reqR7 7 (by decide) (by decide)
    (by decide) (by decide) (by decide) (by decide) rfl
  have h5 := C4_rating_validation [] 0 0 (reqN 3) 5 (by decide) (by decide)
    (by decide) (by decide) (by decide) (by decide) rfl
  exact ⟨h7.1 (by decide), h5.2 (by decide) (by decide)⟩

/-- C5 (amended): a submission containing a file with a disallowed mime
type or a size over the 5 MiB limit is answered 500, because the multer
rejection reaches the framework default error handler instead of being
mapped to a validation response. -/
theorem C5_file_filter_500 (db : List Review) (nid clk : Nat)
    (req : SubmitRequest) (f : IncomingFile) (hf : f ∈ req.files)
    (hbad : validFile f = false) :
    (postBikesAdd db nid clk req).status = 500 := by
  obtain ⟨e, he⟩ := procFiles_err_of_bad req.body.bikeName
    req.body.modelName 0 req.files ⟨f, hf, hbad⟩
  rw [postBikesAdd, he]

/-- Witness for C5 at a concrete submission containing a PDF file. -/
theorem C5_file_filter_500_witness :
    (postBikesAdd [] 0 0 reqBadType).status = 500 :=
  C5_file_filter_500 [] 0 0 reqBadType fileBadType (by decide) (by decide)

/-- Counterexample to C5 as stated: submissions with a wrong-typed file
or an oversized file are answered 500, not 400. -/
theorem C5_counterexample :
    (postBikesAdd [] 0 0 reqBadType).status = 500 ∧
    ¬ ((postBikesAdd [] 0 0 reqBadType).status = 400) ∧
    (postBikesAdd [] 0 0 reqBigFile).status = 500 ∧
    ¬ ((postBikesAdd [] 0 0 reqBigFile).status = 400) := by decide

/-- C6 (confirmed): a submission that does not succeed leaves the
database unchanged, creates no record and emits nothing; a submission
that creates a record answers 201, appends exactly that record, and
emits exactly one newReview broadcast carrying it, after the insert. -/
theorem C6_no_partial_effects (db : List Review) (nid clk : Nat)
    (req : SubmitRequest) :
    ((postBikesAdd db nid clk req).status ≠ 201 →
      (postBikesAdd db nid clk req).db = db ∧
      (postBikesAdd db nid clk req).record = none ∧
      (postBikesAdd db nid clk req).trace = []) ∧
    (∀ rec, (postBikesAdd db nid clk req).record = some rec →
      (postBikesAdd db nid clk req).status = 201 ∧
      (postBikesAdd db nid clk req).db = db ++ [rec] ∧
      (postBikesAdd db nid clk req).trace =
        [Effect.saved rec, Effect.emitted rec]) := by
  rcases postBikesAdd_shape db nid clk req with ⟨s, hs, he⟩ | ⟨rec, -, -, he⟩
  · constructor
    · intro _
      rw [he]
      exact ⟨rfl, rfl, rfl⟩
    · intro r hr
      rw [he] at hr
      have hr2 : (none : Option Review) = some r := hr
      cases hr2
  · constructor
    · intro hst
      rw [he] at hst
      exact absurd rfl hst
    · intro r hr
      rw [he] at hr
      have hr2 : some rec = some r := hr
      injection hr2 with hre
      subst hre
      rw [he]
      exact ⟨rfl, rfl, rfl⟩

/-- Witness for C6: a 2-image submission creates nothing and emits
nothing; a valid 3-image submission emits exactly one broadcast with
the created record, after the save. -/
theorem C6_no_partial_effects_witness :
    (postBikesAdd [] 0 0 (reqN 2)).db = [] ∧
    (postBikesAdd [] 0 0 (reqN 2)).trace = [] ∧
    (postBikesAdd [] 3 4 (reqN 3)).trace =
      [Effect.saved (recAt 3 4), Effect.emitted (recAt 3 4)] := by
  have ha := C6_no_partial_effects [] 0 0 (reqN 2)
  have hb := C6_no_partial_effects [] 3 4 (reqN 3)
  exact ⟨(ha.1 (by decide)).1, (ha.1 (by decide)).2.2,
    (hb.2 (recAt 3 4) (by decide)).2.2⟩

/-- C7 (code bug): although the schema declares totalKM and
costPerService with default 0, an otherwise-valid submission omitting
either field is answered 500 with no record created, because the
handler's Number coercion turns the absent field into NaN, which the
save rejects; the declared default is never reached. -/
theorem C7_numeric_defaults_bug :
    postBikesAdd [] 0 0 ⟨bodyNoKM, List.replicate 3 fileA⟩ =
      ⟨500, none, [], []⟩ ∧
    postBikesAdd [] 0 0 ⟨bodyNoCPS, List.replicate 3 fileA⟩ =
      ⟨500, none, [], []⟩ := by decide

/-- C8 (confirmed): over the repository-assigned identifier space, an
identifier matching no record answers 404 and an identifier of an
existing record returns exactly that record. -/
theorem C8_get_by_id (db : List Review) (i : Nat) (r : Review)
    (huniq : (db.map Review.id).Nodup) :
    ((∀ s ∈ db, s.id ≠ i) → getBikeById db i = ⟨404, none⟩) ∧
    (r ∈ db → r.id = i → getBikeById db i = ⟨200, some r⟩) := by
  constructor
  · intro hnone
    have hfind : db.find? (fun s => s.id == i) = none := by
      rw [List.find?_eq_none]
      intro s hs hp
      exact hnone s hs (eq_of_beq hp)
    rw [getBikeById, hfind]
  · intro hmem hid
    subst hid
    rw [getBikeById, find?_id_unique db huniq r hmem]

/-- Witness for C8 on a concrete two-record database. -/
theorem C8_get_by_id_witness :
    getBikeById [recAt 1 10, recAt 2 20] 9 = ⟨404, none⟩ ∧
    getBikeById [recAt 1 10, recAt 2 20] 2 = ⟨200, some (recAt 2 20)⟩ := by
  have h9 := C8_get_by_id [recAt 1 10, recAt 2 20] 9 (recAt 1 10) (by decide)
  have h2 := C8_get_by_id [recAt 1 10, recAt 2 20] 2 (recAt 2 20) (by decide)
  exact ⟨h9.1 (by decide), h2.2 (by decide) rfl⟩

/-- C9 (confirmed): fetching a record created by a successful submit,
via the identifier assigned at creation, returns exactly that record,
provided previously stored identifiers are older than the assigned
one. -/
theorem C9_roundtrip (db : List Review) (nid clk : Nat)
    (req : SubmitRequest) (rec : Review)
    (hfresh : ∀ r ∈ db, r.id < nid)
    (hrec : (postBikesAdd db nid clk req).record = some rec) :
    getBikeById (postBikesAdd db nid clk req).db rec.id = ⟨200, some rec⟩ := by
  rcases postBikesAdd_shape db nid clk req with ⟨s, hs, he⟩ | ⟨r2, hid, -, he⟩
  · rw [he] at hrec
    have hr2 : (none : Option Review) = some rec := hrec
    cases hr2
  · rw [he] at hrec
    have hr2 : some r2 = some rec := hrec
    injection hr2 with hre
    subst hre
    rw [he]
    show getBikeById (db ++ [r2]) r2.id = ⟨200, some r2⟩
    rw [getBikeById, find?_fresh db r2 (by
      intro r hr
      rw [hid]
      exact hfresh r hr)]

/-- Witness for C9: submit then fetch on a concrete database. -/
theorem C9_roundtrip_witness :
    getBikeById (postBikesAdd [recAt 1 10] 5 6 (reqN 3)).db (recAt 5 6).id =
      ⟨200, some (recAt 5 6)⟩ :=
  C9_roundtrip [recAt 1 10] 5 6 (reqN 3) (recAt 5 6) (by decide) (by decide)

/-- C2 (amended): a missing or empty query is answered 400; a non-empty
query made only of plain literal characters behaves exactly as the
spec's case-insensitive substring search over bikeName or modelName,
newest first, capped at 10 results.  For queries containing regex
metacharacters the behavior differs (see the counterexample). -/
theorem C2_search_contract (db : List Review) (q : String) (hq : q ≠ "")
    (hplain : plainQuery q = true) :
    searchBikes db (some q) = ⟨200, searchBikesSpec db q⟩ ∧
    (searchBikes db (some q)).results.length ≤ 10 ∧
    List.Sorted newestFirst (searchBikes db (some q)).results ∧
    (searchBikes db none).status = 400 ∧
    (searchBikes db (some "")).status = 400 := by
  have hmain := searchBikes_plain db q hq hplain
  refine ⟨hmain, ?_, ?_, rfl, rfl⟩
  · rw [hmain]
    show (searchBikesSpec db q).length ≤ 10
    rw [searchBikesSpec]
    exact List.length_take_le 10 _
  · rw [hmain]
    show List.Sorted newestFirst (searchBikesSpec db q)
    rw [searchBikesSpec]
    exact List.Pairwise.sublist (List.take_sublist 10 _)
      (List.sorted_insertionSort newestFirst _)

/-- Witness for C2 on a concrete database and the query "royal". -/
theorem C2_search_contract_witness :
    searchBikes [recAt 1 10, recHonda, recAt 2 30] (some "royal") =
      ⟨200, searchBikesSpec [recAt 1 10, recHonda, recAt 2 30] "royal"⟩ ∧
    (searchBikes [recAt 1 10, recHonda, recAt 2 30] (some "royal")).results =
      [recAt 2 30, recAt 1 10] ∧
    (searchBikes [recAt 1 10, recHonda, recAt 2 30] none).status = 400 := by
  have h := C2_search_contract [recAt 1 10, recHonda, recAt 2 30] "royal"
    (by decide) (by decide)
  exact ⟨h.1, by decide, h.2.2.2.1⟩

/-- Counterexample to C2 as stated: the query "a.c" returns a record
whose names do not contain "a.c" as a literal substring, because the
query is interpreted as a regular-expression pattern. -/
theorem C2_counterexample :
    (searchBikes [recAbc] (some "a.c")).status = 200 ∧
    (searchBikes [recAbc] (some "a.c")).results = [recAbc] ∧
    ciSubstring "a.c" recAbc.bikeName = false ∧
    ciSubstring "a.c" recAbc.modelName = false := by decide

/-- C10 (confirmed): search interprets the query as a regex pattern,
not a literal substring: "a.c" matches the record named "abc" which does
not contain "a.c" literally, and the invalid pattern "(" is answered
500 even though a record literally containing "(" exists. -/
theorem C10_regex_not_literal :
    (searchBikes [recAbc] (some "a.c")).results = [recAbc] ∧
    ciSubstring "a.c" recAbc.bikeName = false ∧
    ciSubstring "a.c" recAbc.modelName = false ∧
    (searchBikes [recParen] (some "(")).status = 500 ∧
    ciSubstring "(" recParen.bikeName = true := by decide
